import Mathlib

/-!
# Face capture coordinator (`compscifinal.cpp`)

A shallow embedding of the coordination layer of the program: the shared face
buffer, `maxFaces`, the command handlers, the command loop and the capture loop.

The vision library is an external collaborator.  Its image values are embedded
as terms that record which library calls produced them (`Mat`), so two images
are equal exactly when they were produced by the same calls on the same inputs.
The cascade classifier is a function from the grey image to the regions it
reports.
-/

namespace FaceCapture

/-! ## Images and regions -/

/-- An axis-aligned region `cv::Rect`, in frame coordinates. -/
structure Rect where
  x : Int
  y : Int
  width : Int
  height : Int
  deriving DecidableEq, Repr

/-- An image value `cv::Mat`, recorded as the library calls that produced it. -/
inductive Mat where
  /-- The image `cap.read` stored for the frame numbered `id`, `cols` wide and `rows` high. -/
  | camera (id : Nat) (cols rows : Nat)
  /-- The result of `cvtColor(src, gray, COLOR_BGR2GRAY)`. -/
  | cvtColor (src : Mat)
  /-- The sub-image `src(r)`. -/
  | roi (src : Mat) (r : Rect)
  /-- The result of `resize(src, dst, Size(cols, rows))`. -/
  | resize (src : Mat) (cols rows : Nat)
  /-- The image after `rectangle(img, r, Scalar(255, 0, 0), 2)`. -/
  | rectangle (img : Mat) (r : Rect)
  deriving DecidableEq, Repr

/-- Width and height of an image, `Mat::size()`. -/
def Mat.size : Mat → Nat × Nat
  | .camera _ c r => (c, r)
  | .cvtColor s => s.size
  | .roi _ r => (r.width.toNat, r.height.toNat)
  | .resize _ c r => (c, r)
  | .rectangle i _ => i.size

/-- The rectangles drawn on an image by `rectangle`, in drawing order. -/
def Mat.rectangles : Mat → List Rect
  | .camera _ _ _ => []
  | .cvtColor _ => []
  | .roi _ _ => []
  | .resize _ _ _ => []
  | .rectangle i r => i.rectangles ++ [r]

/-- The cascade classifier: `detectMultiScale` on a grey image. -/
abbrev CascadeClassifier := Mat → List Rect

/-! ## `detectFaces` -/

/-- The `for (Rect &face : faces)` loop of `detectFaces`.  `faceCount` is the
loop counter, `frame` the image being annotated, `capturedFaces` the buffer. -/
def detectFacesLoop (maxFaces : Int) (gray : Mat) :
    List Rect → Int → Mat → List Mat → Mat × List Mat
  | [], _, frame, capturedFaces => (frame, capturedFaces)
  | face :: rest, faceCount, frame, capturedFaces =>
    if faceCount ≥ maxFaces then (frame, capturedFaces)
    else
      let frame1 := Mat.rectangle frame face
      let faceROI := Mat.roi gray face
      let faceROI1 := Mat.resize faceROI 200 200
      detectFacesLoop maxFaces gray rest (faceCount + 1) frame1 (capturedFaces ++ [faceROI1])

/-- The function `detectFaces(frame, faceCascade, capturedFaces)`, reading the
global `maxFaces`.  Returns the annotated frame and the buffer. -/
def detectFaces (maxFaces : Int) (frame : Mat) (faceCascade : CascadeClassifier)
    (capturedFaces : List Mat) : Mat × List Mat :=
  let gray := Mat.cvtColor frame
  let faces := faceCascade gray
  detectFacesLoop maxFaces gray faces 0 frame capturedFaces

/-- The locked block of one capture-loop iteration:
`capturedFaces.clear(); detectFaces(frame, faceCascade, capturedFaces);`. -/
def captureBlock (maxFaces : Int) (frame : Mat) (faceCascade : CascadeClassifier)
    (_capturedFaces : List Mat) : Mat × List Mat :=
  detectFaces maxFaces frame faceCascade []

/-! ## The capture directory -/

/-- The kind of a directory entry, as `fs::status` reports it. -/
inductive FileKind where
  /-- The query `is_regular_file()` holds. -/
  | regular
  /-- A directory. -/
  | directory
  /-- Anything else: a FIFO, a socket, a device, or nothing at all (what a
  symbolic link without a target leads to). -/
  | other
  deriving DecidableEq, Repr

/-- What a file holds: an image written by `imwrite`, or bytes of another origin. -/
inductive Content where
  | png (image : Mat)
  | blob (id : Nat)
  deriving DecidableEq, Repr

/-- One entry of the capture directory, named relative to it.  For a symbolic
link, `kind`, `lastWriteTime` and `content` are those of what the link led to
when the directory was listed, as `fs::status` and `fs::last_write_time`
report them. -/
structure Entry where
  name : String
  kind : FileKind
  lastWriteTime : Nat
  content : Content
  symlink : Bool := false
  deriving DecidableEq, Repr

/-- The entries of the capture directory, in the order `directory_iterator`
yields them.  The directory exists throughout, and the process may list it and
create, write, rename and remove files in it. -/
abbrev Directory := List Entry

/-- How a call into the file system can fail to yield a directory. -/
inductive FsFailure where
  /-- The call throws `filesystem_error`. -/
  | filesystemError
  /-- What the call does is not determined by the listed entries: it goes
  through a symbolic link, opens a FIFO, socket or device, or names a path that
  is no direct entry of the capture directory. -/
  | outside
  deriving DecidableEq, Repr

/-- The constant `dataDirectory` of `main`. -/
def dataDirectory : String :=
  "/Users/aniketsethi/Documents/computer science/final/images"

/-- The regular files of a directory. -/
def regularFiles (dir : Directory) : List Entry :=
  dir.filter fun e => e.kind = FileKind.regular

/-- The call `imwrite(filename, img)` at file time `t`: a new regular file, or
new contents for the regular file of that name; nothing when the name belongs
to a directory (the file cannot be opened and `imwrite` returns false).  A
name that belongs to a symbolic link, a FIFO, a socket or a device is opened
through the link or on the device: `outside`. -/
def imwrite (dir : Directory) (name : String) (img : Mat) (t : Nat) :
    Except FsFailure Directory :=
  if name ∈ dir.map Entry.name then
    if (dir.filter fun e => e.name = name ∧ (e.symlink = true ∨ e.kind = FileKind.other)) ≠ []
    then Except.error FsFailure.outside
    else
      Except.ok (dir.map fun e =>
        if e.name = name ∧ e.kind = FileKind.regular then
          { e with lastWriteTime := t, content := Content.png img }
        else e)
  else
    Except.ok (dir ++ [{ name := name, kind := FileKind.regular, lastWriteTime := t,
                         content := Content.png img }])

/-! ## Time stamps -/

/-- The fields of `struct tm` that `put_time` reads. -/
structure Tm where
  tm_year : Nat
  tm_mon : Nat
  tm_mday : Nat
  tm_hour : Nat
  tm_min : Nat
  tm_sec : Nat
  deriving DecidableEq, Repr

/-- What one pass of the save loop reads from its surroundings: the local time
`localtime(&in_time_t)` and the file time the written file receives. -/
structure ClockReading where
  tm : Tm
  writeTime : Nat
  deriving DecidableEq, Repr

/-- A decimal field of two digits, zero filled. -/
def pad2 (n : Nat) : String :=
  if n < 10 then "0" ++ toString n else toString n

/-- The text `put_time(tm, "%Y-%m-%d_%H-%M-%S")`. -/
def putTime (tm : Tm) : String :=
  toString (tm.tm_year + 1900) ++ "-" ++ pad2 (tm.tm_mon + 1) ++ "-" ++ pad2 tm.tm_mday
    ++ "_" ++ pad2 tm.tm_hour ++ "-" ++ pad2 tm.tm_min ++ "-" ++ pad2 tm.tm_sec

/-- The file name `"face_" + timestamp + "_" + to_string(i) + ".png"`, relative
to the capture directory. -/
def faceFileName (timestamp : String) (i : Nat) : String :=
  "face_" ++ timestamp ++ "_" ++ toString i ++ ".png"

/-! ## Command handlers -/

/-- The `for` loop of `saveCapturedFaces`, from index `i` on. -/
def saveCapturedFacesLoop (clock : Nat → ClockReading) :
    Nat → List Mat → Directory → Except FsFailure Directory
  | _, [], dir => Except.ok dir
  | i, face :: rest, dir =>
    let timestamp := putTime (clock i).tm
    let filename := faceFileName timestamp i
    match imwrite dir filename face (clock i).writeTime with
    | Except.ok dir1 => saveCapturedFacesLoop clock (i + 1) rest dir1
    | Except.error e => Except.error e

/-- The function `saveCapturedFaces(capturedFaces, directory)`: the directory
afterwards and the console text. -/
def saveCapturedFaces (capturedFaces : List Mat) (dir : Directory)
    (clock : Nat → ClockReading) : Except FsFailure (Directory × List String) :=
  match saveCapturedFacesLoop clock 0 capturedFaces dir with
  | Except.ok dir1 => Except.ok (dir1, ["Captured faces saved to " ++ dataDirectory ++ "\n"])
  | Except.error e => Except.error e

/-- The function `clearCapturedFaces(capturedFaces, directory)`: the buffer, the
directory and the console text afterwards.  The loop asks `is_regular_file()`
of each entry as it comes to it; with a symbolic link in the directory the
answer can change while earlier entries are removed: `outside`. -/
def clearCapturedFaces (_capturedFaces : List Mat) (dir : Directory) :
    Except FsFailure (List Mat × Directory × List String) :=
  if (dir.filter fun e => e.symlink = true) ≠ [] then Except.error FsFailure.outside
  else
    Except.ok
      ([], dir.filter (fun e => ¬ e.kind = FileKind.regular), ["Captured faces cleared.\n"])

/-- The function `showCapturedFaces(faces)`: one display block per face is
appended to the main dispatch queue.  When the queue runs them is not tracked. -/
def showCapturedFaces (faces : List Mat) (mainQueue : List Mat) : List Mat :=
  mainQueue ++ faces

/-- The member `path::extension()` of a file name: from its last dot on, empty
when there is no dot, when the only dot leads the name, and for the names `.`
and `..`. -/
def extension (filename : String) : String :=
  let cs := filename.data
  if filename = "." ∨ filename = ".." then ""
  else if '.' ∈ cs then
    let tailLength := (cs.reverse.takeWhile fun c => c ≠ '.').length + 1
    if tailLength = cs.length then "" else String.mk (cs.drop (cs.length - tailLength))
  else ""

/-- Whether a text names a direct entry of a directory. -/
def isFileName (s : String) : Bool :=
  s ≠ "" ∧ s ≠ "." ∧ s ≠ ".." ∧ '/' ∉ s.data

/-- The time `fs::last_write_time(path)` of the entry of that name. -/
def lastWriteTime (dir : Directory) (name : String) : Nat :=
  match dir.find? fun e => e.name = name with
  | some e => e.lastWriteTime
  | none => 0

/-- The call `fs::rename(old, new)` inside the capture directory, `old` being
no directory: nothing when both names are the same; a target that is a
directory makes the call throw; any other entry at the target (a regular file,
a symbolic link, a FIFO) is replaced. -/
def fsRename (dir : Directory) (oldName newName : String) : Except FsFailure Directory :=
  if ¬ isFileName newName then Except.error FsFailure.outside
  else if newName = oldName then Except.ok dir
  else if (dir.filter fun e =>
      e.name = newName ∧ e.kind = FileKind.directory ∧ e.symlink = false) ≠ [] then
    Except.error FsFailure.filesystemError
  else
    Except.ok ((dir.filter fun e => ¬ e.name = newName).map fun e =>
      if e.name = oldName then { e with name := newName } else e)

/-- The text `operator<<` prints for a path: quoted, with `"` and `\` escaped. -/
def quoted (s : String) : String :=
  let q := Char.ofNat 34
  let b := Char.ofNat 92
  String.mk ([q] ++ (s.data.flatMap fun c => if c = q ∨ c = b then [b, c] else [c]) ++ [q])

/-- The function `renameFile(newName, directory)`: the directory afterwards and
the console text.  `sort` places the latest file first; the order it is given
here treats `a` before `b` as `not (b later than a)`. -/
def renameFile (newName : String) (dir : Directory) :
    Except FsFailure (Directory × List String) :=
  let files := (regularFiles dir).map Entry.name
  let sorted := files.insertionSort fun a b => lastWriteTime dir a ≥ lastWriteTime dir b
  match sorted with
  | mostRecentFile :: _ =>
    let newFileName := newName ++ extension mostRecentFile
    match fsRename dir mostRecentFile newFileName with
    | Except.ok dir1 =>
      Except.ok (dir1, ["File renamed to: " ++ quoted (dataDirectory ++ "/" ++ newFileName) ++ "\n"])
    | Except.error e => Except.error e
  | [] => Except.ok (dir, ["No files found in the directory.\n"])

/-! ## `stoi` -/

/-- The exceptions `std::stoi` throws. -/
inductive StoiError where
  | invalidArgument
  | outOfRange
  deriving DecidableEq, Repr

/-- The number a run of decimal digits denotes. -/
def decimalValue (digits : List Char) : Nat :=
  digits.foldl (fun a c => 10 * a + (c.toNat - 48)) 0

/-- The white space `strtol` skips. -/
def isSpace (c : Char) : Bool :=
  c = ' ' ∨ (9 ≤ c.toNat ∧ c.toNat ≤ 13)

/-- The call `std::stoi(str)`: leading white space, an optional sign, then the
longest run of decimal digits; `invalid_argument` when there is no digit,
`out_of_range` when the value does not fit an `int`. -/
def stoi (str : String) : Except StoiError Int :=
  let cs := str.data.dropWhile isSpace
  let signed : Bool × List Char :=
    match cs with
    | '-' :: r => (true, r)
    | '+' :: r => (false, r)
    | r => (false, r)
  let digits := signed.2.takeWhile Char.isDigit
  if digits = [] then Except.error StoiError.invalidArgument
  else
    let n : Nat := decimalValue digits
    let v : Int := if signed.1 then - (n : Int) else (n : Int)
    if v < -2147483648 ∨ 2147483647 < v then Except.error StoiError.outOfRange
    else Except.ok v

/-! ## Shared state and the command loop -/

/-- The state both threads see, with the capture directory and the console. -/
structure State where
  capturedFaces : List Mat
  maxFaces : Int
  stopInputThread : Bool
  directory : Directory
  out : List String
  mainQueue : List Mat
  window : Option Mat
  deriving DecidableEq

/-- The state `main` builds before it starts the input thread. -/
def initial (dir : Directory) : State :=
  { capturedFaces := [], maxFaces := 1, stopInputThread := false, directory := dir,
    out := [], mainQueue := [], window := none }

/-- The function `setMaxFaces(max)`. -/
def setMaxFaces (s : State) (max : Int) : State :=
  { s with
    maxFaces := max,
    out := s.out ++ ["Maximum number of faces to detect set to " ++ toString max ++ "\n"] }

/-- A text left-aligned in a field of the given width, `left << setw(width)`. -/
def leftSetw (width : Nat) (s : String) : String :=
  s ++ String.mk (List.replicate (width - s.length) ' ')

/-- The table the `help` command prints. -/
def helpText : List String :=
  let rule := String.mk (List.replicate (30 * 2 + 4) '-') ++ "\n"
  [rule,
   leftSetw 30 "Command" ++ "| " ++ "Description" ++ "\n",
   rule,
   leftSetw 30 "capture" ++ "| " ++ "Manually capture detected faces" ++ "\n",
   leftSetw 30 "clear" ++ "| " ++ "Clear captured faces" ++ "\n",
   leftSetw 30 "show" ++ "| " ++ "Show captured faces" ++ "\n",
   leftSetw 30 "setmax <number>" ++ "| " ++ "Set max number of faces to detect" ++ "\n",
   leftSetw 30 "exit" ++ "| " ++ "Exit the program" ++ "\n",
   rule]

/-- How the dispatch of one command line ends. -/
inductive CommandResult where
  /-- The branch ran to its end. -/
  | continues (s : State)
  /-- The `exit` branch: the flag is set and the loop is left by `break`. -/
  | exits (s : State)
  /-- An exception left the thread function: `std::terminate` ends the process. -/
  | uncaught (s : State)
  /-- What the handler does to the directory is not determined by the listed
  entries (see `FsFailure.outside`). -/
  | outside
  deriving DecidableEq

/-- The `if`/`else if` chain of the input thread on one line read by `getline`. -/
def handleCommand (s : State) (command : String) (clock : Nat → ClockReading) :
    CommandResult :=
  if command = "capture" then
    match saveCapturedFaces s.capturedFaces s.directory clock with
    | Except.ok r => CommandResult.continues { s with directory := r.1, out := s.out ++ r.2 }
    | Except.error FsFailure.filesystemError => CommandResult.uncaught s
    | Except.error FsFailure.outside => CommandResult.outside
  else if command = "clear" then
    match clearCapturedFaces s.capturedFaces s.directory with
    | Except.ok r =>
      CommandResult.continues
        { s with capturedFaces := r.1, directory := r.2.1, out := s.out ++ r.2.2 }
    | Except.error FsFailure.filesystemError => CommandResult.uncaught s
    | Except.error FsFailure.outside => CommandResult.outside
  else if command = "show" then
    CommandResult.continues { s with mainQueue := showCapturedFaces s.capturedFaces s.mainQueue }
  else if "setmax ".data.isPrefixOf command.data then
    match stoi (String.mk (command.data.drop 7)) with
    | Except.error _ => CommandResult.uncaught s
    | Except.ok max => CommandResult.continues (setMaxFaces s max)
  else if command = "exit" then
    CommandResult.exits { s with stopInputThread := true }
  else if command = "help" then
    CommandResult.continues { s with out := s.out ++ helpText }
  else if "rename ".data.isPrefixOf command.data then
    let newName := String.mk (command.data.drop 7)
    match renameFile newName s.directory with
    | Except.ok r => CommandResult.continues { s with directory := r.1, out := s.out ++ r.2 }
    | Except.error FsFailure.filesystemError => CommandResult.uncaught s
    | Except.error FsFailure.outside => CommandResult.outside
  else
    CommandResult.continues
      { s with out := s.out ++ ["Unknown command. Type 'help' for a list of available commands.\n"] }

/-! ## The two loops -/

/-- Where the input thread stands. -/
inductive InputThread where
  /-- About to evaluate `while (!stopInputThread)`. -/
  | atGuard
  /-- Blocked in `getline`, the prompt printed. -/
  | atGetline
  /-- The thread function has returned. -/
  | returned
  deriving DecidableEq, Repr

/-- The whole process: the shared state and where each thread stands. -/
structure Process where
  shared : State
  inputThread : InputThread
  captureLoopRunning : Bool
  terminated : Bool
  deriving DecidableEq

/-- The process when `main` has started the input thread. -/
def Process.start (dir : Directory) : Process :=
  { shared := initial dir, inputThread := InputThread.atGuard, captureLoopRunning := true,
    terminated := false }

/-- One pass of the body of `while (cap.read(frame))` on a frame that was read,
`key` being what `waitKey(10)` returns: the state afterwards, and whether the
loop goes on to read the next frame. -/
def captureIteration (faceCascade : CascadeClassifier) (s : State) (frame : Mat) (key : Int) :
    State × Bool :=
  let r := captureBlock s.maxFaces frame faceCascade s.capturedFaces
  let s1 := { s with capturedFaces := r.2, window := some r.1 }
  if key = 27 then ({ s1 with stopInputThread := true }, false) else (s1, true)

/-- What either thread can do next. -/
inductive Event where
  /-- The input thread evaluates its loop condition, sleeps and prompts. -/
  | guard
  /-- The input thread reads a line and dispatches it, the file system doing
  what the listed entries determine. -/
  | line (command : String) (clock : Nat → ClockReading)
  /-- The input thread reads the line `capture`, `clear` or `rename <name>` and
  the file system is left to its own: `answer` is the directory the handler's
  calls leave and, for `rename`, the text the handler prints, or `none` when a
  call threw.  This covers every behaviour of the file system, also where links,
  special files, access rights or paths outside the directory decide it. -/
  | lineUntracked (command : String) (answer : Option (Directory × List String))
  /-- The capture loop reads a frame and runs its body on it. -/
  | frame (frame : Mat) (key : Int)
  /-- The camera yields no frame: the capture loop ends. -/
  | streamEnd

/-- The text a handler that calls into the file system prints when it returns,
`text` being what `renameFile` prints. -/
def handlerText (command : String) (text : List String) : List String :=
  if command = "capture" then ["Captured faces saved to " ++ dataDirectory ++ "\n"]
  else if command = "clear" then ["Captured faces cleared.\n"]
  else text

/-- The shared state when the file-system calls of a handler begin:
`clearCapturedFaces` has emptied the buffer by then. -/
def beforeCalls (s : State) (command : String) : State :=
  if command = "clear" then { s with capturedFaces := [] } else s

/-- One step of the process; `none` when the event cannot happen in this state.
A line whose handler the listed entries do not determine happens as
`lineUntracked`, not as `line`. -/
def step (faceCascade : CascadeClassifier) (p : Process) : Event → Option Process
  | Event.guard =>
    if p.terminated ∨ p.inputThread ≠ InputThread.atGuard then none
    else if p.shared.stopInputThread then some { p with inputThread := InputThread.returned }
    else
      some { p with
        shared := { p.shared with out := p.shared.out ++ ["Enter command: "] },
        inputThread := InputThread.atGetline }
  | Event.line command clock =>
    if p.terminated ∨ p.inputThread ≠ InputThread.atGetline then none
    else
      match handleCommand p.shared command clock with
      | CommandResult.continues s =>
        some { p with
          shared := s,
          inputThread :=
            if s.stopInputThread then InputThread.returned else InputThread.atGuard }
      | CommandResult.exits s => some { p with shared := s, inputThread := InputThread.returned }
      | CommandResult.uncaught s => some { p with shared := s, terminated := true }
      | CommandResult.outside => none
  | Event.lineUntracked command answer =>
    if p.terminated ∨ p.inputThread ≠ InputThread.atGetline then none
    else if command = "capture" ∨ command = "clear"
        ∨ "rename ".data.isPrefixOf command.data then
      let s0 := beforeCalls p.shared command
      match answer with
      | none => some { p with shared := s0, terminated := true }
      | some r =>
        some { p with
          shared := { s0 with directory := r.1, out := s0.out ++ handlerText command r.2 },
          inputThread :=
            if s0.stopInputThread then InputThread.returned else InputThread.atGuard }
    else none
  | Event.frame frame key =>
    if p.terminated ∨ ¬ p.captureLoopRunning then none
    else
      let r := captureIteration faceCascade p.shared frame key
      some { p with shared := r.1, captureLoopRunning := r.2 }
  | Event.streamEnd =>
    if p.terminated ∨ ¬ p.captureLoopRunning then none
    else some { p with captureLoopRunning := false }

/-- The process after a sequence of events, when each of them can happen. -/
def run (faceCascade : CascadeClassifier) : Process → List Event → Option Process
  | p, [] => some p
  | p, e :: es =>
    match step faceCascade p e with
    | some p1 => run faceCascade p1 es
    | none => none

/-- The loop `while (cap.read(frame))` on its own, the camera yielding the
listed frames (each with what `waitKey(10)` returns after it) and then none. -/
def captureLoop (faceCascade : CascadeClassifier) : State → List (Mat × Int) → State
  | s, [] => s
  | s, (frame, key) :: rest =>
    let r := captureIteration faceCascade s frame key
    if r.2 then captureLoop faceCascade r.1 rest else r.1

/-! ## Vocabulary of the statements -/

/-- The face image buffered for a region: cropped from the grey image and resized. -/
def cropped (gray : Mat) (face : Rect) : Mat :=
  Mat.resize (Mat.roi gray face) 200 200

/-- The entry pass `i` of the save loop creates for a face. -/
def savedEntry (clock : Nat → ClockReading) (i : Nat) (face : Mat) : Entry :=
  { name := faceFileName (putTime (clock i).tm) i, kind := FileKind.regular,
    lastWriteTime := (clock i).writeTime, content := Content.png face }

/-- The entries the save loop creates for a buffer, from index `i` on. -/
def savedEntries (clock : Nat → ClockReading) (i : Nat) (faces : List Mat) : List Entry :=
  (faces.enumFrom i).map fun x => savedEntry clock x.1 x.2

/-- The state a command leaves behind, when it leaves one in the tracked directory. -/
def CommandResult.state? : CommandResult → Option State
  | CommandResult.continues s => some s
  | CommandResult.exits s => some s
  | CommandResult.uncaught s => some s
  | CommandResult.outside => none

/-- A camera frame. -/
def frameA : Mat := Mat.camera 0 640 480

/-- A region of `frameA`. -/
def rectA : Rect := { x := 10, y := 20, width := 100, height := 100 }

/-- Another region of `frameA`. -/
def rectB : Rect := { x := 300, y := 40, width := 120, height := 120 }

/-- A classifier that reports one region on every image. -/
def oneFace : CascadeClassifier := fun _ => [rectA]

/-- A classifier that reports two regions on every image. -/
def twoFaces : CascadeClassifier := fun _ => [rectA, rectB]

/-- A clock that reads 5 January 2024, 09:03:07 at every pass. -/
def clockA : Nat → ClockReading := fun _ =>
  { tm := { tm_year := 124, tm_mon := 0, tm_mday := 5, tm_hour := 9, tm_min := 3, tm_sec := 7 },
    writeTime := 1000 }

/-- A buffer of one face. -/
def bufferOne : List Mat := [cropped (Mat.cvtColor frameA) rectA]

/-- A state whose directory already holds the file the next capture names. -/
def stateTaken : State :=
  { initial [{ name := "face_2024-01-05_09-03-07_0.png", kind := FileKind.regular,
               lastWriteTime := 999, content := Content.blob 1 }] with
    capturedFaces := bufferOne }

/-- A directory of two regular files, the older one named `foo.png`. -/
def directoryB : Directory :=
  [{ name := "a.png", kind := FileKind.regular, lastWriteTime := 2, content := Content.blob 1 },
   { name := "foo.png", kind := FileKind.regular, lastWriteTime := 1, content := Content.blob 2 }]

/-- A directory of two regular files and a folder. -/
def directoryC : Directory :=
  [{ name := "a.png", kind := FileKind.regular, lastWriteTime := 2, content := Content.blob 1 },
   { name := "b.jpg", kind := FileKind.regular, lastWriteTime := 5, content := Content.blob 2 },
   { name := "old", kind := FileKind.directory, lastWriteTime := 9,
     content := Content.blob 0 }]

/-- A clock that reads two seconds after `clockA`. -/
def clockB : Nat → ClockReading := fun _ =>
  { tm := { tm_year := 124, tm_mon := 0, tm_mday := 5, tm_hour := 9, tm_min := 3, tm_sec := 9 },
    writeTime := 1002 }

/-- A state after a first capture of one face at `clockA`: its file is in the
directory, the limit is 2 and the buffer holds two faces. -/
def stateSecond : State :=
  { initial (savedEntries clockA 0 bufferOne) with
    capturedFaces := [cropped (Mat.cvtColor frameA) rectA, cropped (Mat.cvtColor frameA) rectB],
    maxFaces := 2 }

/-- A folder inside the capture directory. -/
def folderEntry : Entry :=
  { name := "archive", kind := FileKind.directory, lastWriteTime := 5,
    content := Content.blob 0 }

/-- The older file of `directoryB`. -/
def olderFile : Entry :=
  { name := "foo.png", kind := FileKind.regular, lastWriteTime := 1, content := Content.blob 2 }

/-- The latest regular file of `directoryC`. -/
def latestFile : Entry :=
  { name := "b.jpg", kind := FileKind.regular, lastWriteTime := 5, content := Content.blob 2 }

/-! # Lemmas -/

theorem detectFacesLoop_eq (maxFaces : Int) (gray : Mat) (faces : List Rect) :
    ∀ (faceCount : Int) (frame : Mat) (buf : List Mat), 0 ≤ faceCount →
      detectFacesLoop maxFaces gray faces faceCount frame buf =
        ((faces.take (maxFaces - faceCount).toNat).foldl Mat.rectangle frame,
         buf ++ (faces.take (maxFaces - faceCount).toNat).map (cropped gray)) := by
  induction faces with
  | nil => intro c fr buf _; simp [detectFacesLoop]
  | cons face rest ih =>
    intro c fr buf hc
    unfold detectFacesLoop
    by_cases h : c ≥ maxFaces
    · have h0 : (maxFaces - c).toNat = 0 := by omega
      simp [h, h0]
    · have h1 : (maxFaces - c).toNat = (maxFaces - (c + 1)).toNat + 1 := by omega
      rw [if_neg h]
      simp only []
      rw [ih (c + 1) _ _ (by omega), h1]
      simp [cropped]

theorem detectFaces_eq (maxFaces : Int) (frame : Mat) (faceCascade : CascadeClassifier)
    (buf : List Mat) :
    detectFaces maxFaces frame faceCascade buf =
      (((faceCascade (Mat.cvtColor frame)).take maxFaces.toNat).foldl Mat.rectangle frame,
       buf ++ ((faceCascade (Mat.cvtColor frame)).take maxFaces.toNat).map
         (cropped (Mat.cvtColor frame))) := by
  unfold detectFaces
  simp only []
  rw [detectFacesLoop_eq _ _ _ 0 _ _ (le_refl 0)]
  simp

theorem rectangles_foldl (rs : List Rect) :
    ∀ frame : Mat, (rs.foldl Mat.rectangle frame).rectangles = frame.rectangles ++ rs := by
  induction rs with
  | nil => intro f; simp
  | cons r rest ih => intro f; simp [ih, Mat.rectangles]

theorem captureIteration_faces (faceCascade : CascadeClassifier) (s : State) (frame : Mat)
    (key : Int) :
    (captureIteration faceCascade s frame key).1.capturedFaces =
      ((faceCascade (Mat.cvtColor frame)).take s.maxFaces.toNat).map
        (cropped (Mat.cvtColor frame)) := by
  unfold captureIteration captureBlock
  rw [detectFaces_eq]
  by_cases h : key = 27 <;> simp [h]

theorem captureIteration_maxFaces (faceCascade : CascadeClassifier) (s : State) (frame : Mat)
    (key : Int) : (captureIteration faceCascade s frame key).1.maxFaces = s.maxFaces := by
  unfold captureIteration
  by_cases h : key = 27 <;> simp [h]

theorem captureIteration_continues (faceCascade : CascadeClassifier) (s : State) (frame : Mat)
    (key : Int) : (captureIteration faceCascade s frame key).2 = decide (key ≠ 27) := by
  unfold captureIteration
  by_cases h : key = 27 <;> simp [h]

theorem captureLoop_maxFaces (faceCascade : CascadeClassifier) (frames : List (Mat × Int)) :
    ∀ s : State, (captureLoop faceCascade s frames).maxFaces = s.maxFaces := by
  induction frames with
  | nil => intro s; rfl
  | cons x rest ih =>
    intro s
    obtain ⟨frame, key⟩ := x
    unfold captureLoop
    simp only []
    split
    · rw [ih, captureIteration_maxFaces]
    · rw [captureIteration_maxFaces]

theorem captureLoop_append_last (faceCascade : CascadeClassifier) (earlier : List (Mat × Int))
    (frame : Mat) (key : Int) :
    ∀ s : State, (∀ x ∈ earlier, x.2 ≠ 27) →
      captureLoop faceCascade s (earlier ++ [(frame, key)]) =
        (captureIteration faceCascade (captureLoop faceCascade s earlier) frame key).1 := by
  induction earlier with
  | nil =>
    intro s _
    simp only [List.nil_append, captureLoop]
    split <;> rfl
  | cons x rest ih =>
    intro s h
    obtain ⟨f, k⟩ := x
    have hk : k ≠ 27 := h (f, k) (List.mem_cons_self _ _)
    have hrest : ∀ x ∈ rest, x.2 ≠ 27 := fun x hx => h x (List.mem_cons_of_mem _ hx)
    simp only [List.cons_append, captureLoop, captureIteration_continues, hk, ne_eq,
      not_false_eq_true, decide_True, if_true]
    exact ih _ hrest

theorem handleCommand_outside (s : State) (command : String) (clock : Nat → ClockReading)
    (h : handleCommand s command clock = CommandResult.outside) :
    command = "capture" ∨ command = "clear" ∨ "rename ".data.isPrefixOf command.data := by
  unfold handleCommand at h
  split_ifs at h with h1 h2 h3 h4 h5 h6 h7
  · exact Or.inl h1
  · exact Or.inr (Or.inl h2)
  · split at h <;> simp at h
  · exact Or.inr (Or.inr h7)

/-- No line is lost: a line read at `getline` happens as `line`, or else as
`lineUntracked` with whatever the file system answers. -/
theorem line_or_lineUntracked (faceCascade : CascadeClassifier) (p : Process)
    (command : String) (clock : Nat → ClockReading)
    (hrunning : p.terminated = false) (hat : p.inputThread = InputThread.atGetline) :
    (step faceCascade p (Event.line command clock)).isSome = true
      ∨ ∀ answer, (step faceCascade p (Event.lineUntracked command answer)).isSome = true := by
  cases hres : handleCommand p.shared command clock with
  | continues s => left; simp [step, hrunning, hat, hres]
  | exits s => left; simp [step, hrunning, hat, hres]
  | uncaught s => left; simp [step, hrunning, hat, hres]
  | outside =>
    right
    intro answer
    have hc := handleCommand_outside p.shared command clock hres
    simp only [step]
    rw [if_neg (by simp [hrunning, hat]), if_pos hc]
    cases answer <;> rfl

theorem digitChar_ne_underscore (k : Nat) (hk : k < 10) :
    Nat.digitChar k ≠ '_' := by
  interval_cases k <;> decide

theorem toDigitsCore_append (fuel : Nat) :
    ∀ (n : Nat) (ds : List Char),
      Nat.toDigitsCore 10 fuel n ds = Nat.toDigitsCore 10 fuel n [] ++ ds := by
  induction fuel with
  | zero => intro n ds; simp [Nat.toDigitsCore]
  | succ fuel ih =>
    intro n ds
    simp only [Nat.toDigitsCore]
    split
    · simp
    · rw [ih (n / 10) (Nat.digitChar (n % 10) :: ds), ih (n / 10) [Nat.digitChar (n % 10)]]
      simp

theorem digitChar_value (k : Nat) (hk : k < 10) : (Nat.digitChar k).toNat - 48 = k := by
  interval_cases k <;> rfl

theorem decimalValue_toDigitsCore (fuel : Nat) :
    ∀ n : Nat, n < fuel → decimalValue (Nat.toDigitsCore 10 fuel n []) = n := by
  induction fuel with
  | zero => intro n h; omega
  | succ fuel ih =>
    intro n h
    simp only [Nat.toDigitsCore]
    split
    · rename_i h0
      simp only [decimalValue, List.foldl]
      rw [digitChar_value _ (Nat.mod_lt _ (by decide))]
      omega
    · rename_i h0
      rw [toDigitsCore_append]
      have hlt : n / 10 < fuel := by omega
      have := ih (n / 10) hlt
      simp only [decimalValue, List.foldl_append, List.foldl] at this ⊢
      rw [this, digitChar_value _ (Nat.mod_lt _ (by decide))]
      omega

theorem toDigitsCore_no_underscore (fuel : Nat) :
    ∀ (n : Nat) (ds : List Char), '_' ∉ ds → '_' ∉ Nat.toDigitsCore 10 fuel n ds := by
  induction fuel with
  | zero => intro n ds h; simpa [Nat.toDigitsCore] using h
  | succ fuel ih =>
    intro n ds h
    have hd : '_' ∉ Nat.digitChar (n % 10) :: ds := by
      simp only [List.mem_cons, not_or]
      exact ⟨fun hc => digitChar_ne_underscore _ (Nat.mod_lt _ (by decide)) hc.symm, h⟩
    simp only [Nat.toDigitsCore]
    split
    · exact hd
    · exact ih _ _ hd

theorem toString_data (i : Nat) : (toString i).data = Nat.toDigits 10 i := rfl

theorem toString_nat_injective (i j : Nat) (h : (toString i).data = (toString j).data) : i = j := by
  rw [toString_data, toString_data] at h
  have hi := decimalValue_toDigitsCore (i + 1) i (Nat.lt_succ_self i)
  have hj := decimalValue_toDigitsCore (j + 1) j (Nat.lt_succ_self j)
  unfold Nat.toDigits at h
  rw [h] at hi
  omega

theorem toString_nat_no_underscore (i : Nat) : '_' ∉ (toString i).data := by
  rw [toString_data]
  exact toDigitsCore_no_underscore _ _ _ (by simp)

theorem suffix_after_last_mark (c : Char) (xs ys d1 d2 : List Char)
    (h1 : c ∉ d1) (h2 : c ∉ d2) (h : xs ++ c :: d1 = ys ++ c :: d2) : d1 = d2 := by
  rcases List.append_eq_append_iff.mp h with ⟨a, _, ha⟩ | ⟨a, _, ha⟩
  · cases a with
    | nil => simpa using ha
    | cons b a =>
      simp only [List.cons_append, List.cons.injEq] at ha
      exact absurd (by rw [ha.2]; simp) h1
  · cases a with
    | nil => simpa using ha.symm
    | cons b a =>
      simp only [List.cons_append, List.cons.injEq] at ha
      exact absurd (by rw [ha.2]; simp) h2

theorem faceFileName_index_injective (t1 t2 : String) (i j : Nat)
    (h : faceFileName t1 i = faceFileName t2 j) : i = j := by
  have hd := congrArg String.data h
  simp only [faceFileName, String.data_append] at hd
  have hd1 := List.append_cancel_right hd
  apply toString_nat_injective
  have e1 : ("face_".data ++ t1.data ++ "_".data ++ (toString i).data) =
      ("face_".data ++ t1.data) ++ '_' :: (toString i).data := by simp
  have e2 : ("face_".data ++ t2.data ++ "_".data ++ (toString j).data) =
      ("face_".data ++ t2.data) ++ '_' :: (toString j).data := by simp
  rw [e1, e2] at hd1
  exact suffix_after_last_mark '_' _ _ _ _ (toString_nat_no_underscore i)
    (toString_nat_no_underscore j) hd1

theorem savedEntries_cons (clock : Nat → ClockReading) (i : Nat) (face : Mat) (rest : List Mat) :
    savedEntries clock i (face :: rest) =
      savedEntry clock i face :: savedEntries clock (i + 1) rest := rfl

theorem savedEntries_length (clock : Nat → ClockReading) (i : Nat) (faces : List Mat) :
    (savedEntries clock i faces).length = faces.length := by
  simp [savedEntries]

theorem savedEntries_regular (clock : Nat → ClockReading) (i : Nat) (faces : List Mat) :
    ∀ e ∈ savedEntries clock i faces, e.kind = FileKind.regular := by
  intro e he
  simp only [savedEntries, List.mem_map] at he
  obtain ⟨x, _, rfl⟩ := he
  rfl

theorem savedEntries_name_index (clock : Nat → ClockReading) (i : Nat) (faces : List Mat) :
    ∀ e ∈ savedEntries clock i faces,
      ∃ j, i ≤ j ∧ e.name = faceFileName (putTime (clock j).tm) j := by
  intro e he
  simp only [savedEntries, List.mem_map] at he
  obtain ⟨x, hx, rfl⟩ := he
  exact ⟨x.1, List.le_fst_of_mem_enumFrom hx, rfl⟩

theorem savedEntries_names_nodup (clock : Nat → ClockReading) (faces : List Mat) :
    ∀ i : Nat, ((savedEntries clock i faces).map Entry.name).Nodup := by
  induction faces with
  | nil => intro i; simp [savedEntries]
  | cons face rest ih =>
    intro i
    rw [savedEntries_cons, List.map_cons, List.nodup_cons]
    refine ⟨?_, ih (i + 1)⟩
    intro hmem
    simp only [List.mem_map] at hmem
    obtain ⟨e, he, hname⟩ := hmem
    obtain ⟨j, hj, hej⟩ := savedEntries_name_index clock (i + 1) rest e he
    rw [hej] at hname
    have := faceFileName_index_injective _ _ _ _ hname
    omega

theorem imwrite_fresh (dir : Directory) (name : String) (img : Mat) (t : Nat)
    (h : name ∉ dir.map Entry.name) :
    imwrite dir name img t =
      Except.ok (dir ++ [{ name := name, kind := FileKind.regular, lastWriteTime := t,
                           content := Content.png img }]) := by
  unfold imwrite
  rw [if_neg h]

theorem saveCapturedFacesLoop_fresh (clock : Nat → ClockReading) (faces : List Mat) :
    ∀ (i : Nat) (dir : Directory),
      (∀ j < faces.length,
        faceFileName (putTime (clock (i + j)).tm) (i + j) ∉ dir.map Entry.name) →
      saveCapturedFacesLoop clock i faces dir = Except.ok (dir ++ savedEntries clock i faces) := by
  induction faces with
  | nil => intro i dir _; simp [saveCapturedFacesLoop, savedEntries]
  | cons face rest ih =>
    intro i dir h
    have h0 : faceFileName (putTime (clock i).tm) i ∉ dir.map Entry.name := by
      simpa using h 0 (by simp)
    simp only [saveCapturedFacesLoop]
    rw [imwrite_fresh _ _ _ _ h0]
    simp only []
    rw [ih (i + 1), savedEntries_cons]
    · simp [savedEntry]
    · intro j hj
      have hj1 := h (j + 1) (by simpa using hj)
      have e : i + (j + 1) = i + 1 + j := by omega
      rw [e] at hj1
      simp only [List.map_append, List.map_cons, List.map_nil, List.mem_append,
        List.mem_singleton, not_or]
      refine ⟨hj1, ?_⟩
      intro heq
      have := faceFileName_index_injective _ _ _ _ heq
      omega

theorem regularFiles_append_saved (clock : Nat → ClockReading) (i : Nat) (faces : List Mat)
    (dir : Directory) :
    regularFiles (dir ++ savedEntries clock i faces) =
      regularFiles dir ++ savedEntries clock i faces := by
  unfold regularFiles
  rw [List.filter_append]
  congr 1
  rw [List.filter_eq_self]
  intro e he
  simpa using savedEntries_regular clock i faces e he


theorem mem_of_mem_regularFiles (dir : Directory) (x : Entry) (h : x ∈ regularFiles dir) :
    x ∈ dir ∧ x.kind = FileKind.regular := by
  simpa [regularFiles] using h

theorem entry_eq_of_name_eq (dir : Directory) (hnodup : (dir.map Entry.name).Nodup)
    (x y : Entry) (hx : x ∈ dir) (hy : y ∈ dir) (h : x.name = y.name) : x = y :=
  List.inj_on_of_nodup_map hnodup hx hy h

theorem lastWriteTime_of_mem (dir : Directory) (hnodup : (dir.map Entry.name).Nodup)
    (x : Entry) (hx : x ∈ dir) : lastWriteTime dir x.name = x.lastWriteTime := by
  unfold lastWriteTime
  cases hf : dir.find? (fun e => e.name = x.name) with
  | none =>
    rw [List.find?_eq_none] at hf
    exact absurd (by simp) (hf x hx)
  | some y =>
    have hy := List.mem_of_find?_eq_some hf
    have hn : y.name = x.name := by simpa using List.find?_some hf
    rw [entry_eq_of_name_eq dir hnodup y x hy hx hn]

theorem sorted_head_latest (dir : Directory) (files : List String) (first : String)
    (rest : List String)
    (h : files.insertionSort (fun a b => lastWriteTime dir a ≥ lastWriteTime dir b) =
      first :: rest) :
    first ∈ files ∧ ∀ name ∈ files, lastWriteTime dir name ≤ lastWriteTime dir first := by
  haveI : IsTotal String (fun a b => lastWriteTime dir a ≥ lastWriteTime dir b) :=
    ⟨fun a b => Nat.le_total _ _⟩
  haveI : IsTrans String (fun a b => lastWriteTime dir a ≥ lastWriteTime dir b) :=
    ⟨fun a b c hab hbc => Nat.le_trans hbc hab⟩
  have hperm := List.perm_insertionSort
    (fun a b => lastWriteTime dir a ≥ lastWriteTime dir b) files
  have hsorted := List.sorted_insertionSort
    (fun a b => lastWriteTime dir a ≥ lastWriteTime dir b) files
  rw [h] at hperm hsorted
  refine ⟨hperm.subset (List.mem_cons_self _ _), ?_⟩
  intro name hname
  have hmem : name ∈ first :: rest := hperm.symm.subset hname
  rcases List.mem_cons.mp hmem with rfl | hr
  · exact le_refl _
  · exact List.rel_of_sorted_cons hsorted name hr

theorem sorted_first_is_latest (dir : Directory) (e : Entry)
    (hnodup : (dir.map Entry.name).Nodup)
    (hdistinct : ((regularFiles dir).map Entry.lastWriteTime).Nodup)
    (he : e ∈ regularFiles dir)
    (hlatest : ∀ x ∈ regularFiles dir, x.lastWriteTime ≤ e.lastWriteTime) :
    ∃ rest, ((regularFiles dir).map Entry.name).insertionSort
        (fun a b => lastWriteTime dir a ≥ lastWriteTime dir b) = e.name :: rest := by
  cases hs : ((regularFiles dir).map Entry.name).insertionSort
      (fun a b => lastWriteTime dir a ≥ lastWriteTime dir b) with
  | nil =>
    have hperm := List.perm_insertionSort
      (fun a b => lastWriteTime dir a ≥ lastWriteTime dir b) ((regularFiles dir).map Entry.name)
    rw [hs] at hperm
    have : e.name ∈ ([] : List String) := hperm.symm.subset (List.mem_map_of_mem _ he)
    simp at this
  | cons first rest =>
    obtain ⟨hfirst, hmax⟩ := sorted_head_latest dir _ first rest hs
    obtain ⟨x, hx, rfl⟩ := List.mem_map.mp hfirst
    have h1 := hmax e.name (List.mem_map_of_mem _ he)
    rw [lastWriteTime_of_mem dir hnodup e (mem_of_mem_regularFiles dir e he).1,
      lastWriteTime_of_mem dir hnodup x (mem_of_mem_regularFiles dir x hx).1] at h1
    have h2 := hlatest x hx
    have hxe : x = e := List.inj_on_of_nodup_map hdistinct hx he (Nat.le_antisymm h2 h1)
    exact ⟨rest, by rw [hxe]⟩

theorem fsRename_free (dir : Directory) (e : Entry) (target : String)
    (hnodup : (dir.map Entry.name).Nodup) (he : e ∈ dir)
    (hname : isFileName target = true)
    (hfree : ∀ x ∈ dir, x.name = target → x = e) :
    fsRename dir e.name target =
      Except.ok (dir.map fun x => if x = e then { e with name := target } else x) := by
  unfold fsRename
  rw [if_neg (by simpa using hname)]
  by_cases hsame : target = e.name
  · rw [if_pos hsame]
    subst hsame
    have hid : (fun x : Entry => if x = e then { e with name := e.name } else x) = id := by
      funext x
      by_cases h : x = e <;> simp [h]
    rw [hid, List.map_id]
  · rw [if_neg hsame]
    have hnone : ∀ x ∈ dir, ¬ x.name = target := by
      intro x hx hxn
      have := hfree x hx hxn
      rw [this] at hxn
      exact hsame hxn.symm
    have h1 : (dir.filter fun x =>
        x.name = target ∧ x.kind = FileKind.directory ∧ x.symlink = false) = [] := by
      rw [List.filter_eq_nil_iff]
      intro x hx
      simp [hnone x hx]
    have h2 : (dir.filter fun x => ¬ x.name = target) = dir := by
      rw [List.filter_eq_self]
      intro x hx
      simp [hnone x hx]
    rw [if_neg (by rw [h1]; simp), h2]
    congr 1
    apply List.map_congr_left
    intro x hx
    by_cases hxe : x = e
    · simp [hxe]
    · have : ¬ x.name = e.name := fun hn => hxe (entry_eq_of_name_eq dir hnodup x e hx he hn)
      simp [hxe, this]

theorem renameFile_empty (newName : String) (dir : Directory) (h : regularFiles dir = []) :
    renameFile newName dir = Except.ok (dir, ["No files found in the directory.\n"]) := by
  simp [renameFile, h]


/-! # The claims -/

/-- C1, as stated, fails for a negative `maxFaces`: with one detected region and
`maxFaces = -1` the buffer has no entry, not `min 1 (-1)` of them. -/
theorem C1_counterexample :
    ¬ (((captureIteration oneFace { initial [] with maxFaces := -1 } frameA 0).1.capturedFaces.length
          : Int) = min ((oneFace (Mat.cvtColor frameA)).length : Int) (-1)) := by
  decide

/-- C1, amended: after one capture-loop iteration on a frame with `k` detected
regions and `maxFaces = m`, the buffer has exactly `min k (max m 0)` entries
(that is `min k m` for `m ≥ 0` and none for `m < 0`), each of size 200 x 200. -/
theorem C1_buffer_length_and_size (faceCascade : CascadeClassifier) (s : State) (frame : Mat)
    (key : Int) :
    ((captureIteration faceCascade s frame key).1.capturedFaces.length : Int) =
        min ((faceCascade (Mat.cvtColor frame)).length : Int) (max s.maxFaces 0)
      ∧ ∀ face ∈ (captureIteration faceCascade s frame key).1.capturedFaces,
          face.size = (200, 200) := by
  rw [captureIteration_faces]
  refine ⟨?_, ?_⟩
  · simp only [List.length_map, List.length_take]
    omega
  · intro face hface
    simp only [List.mem_map] at hface
    obtain ⟨r, _, rfl⟩ := hface
    rfl

/-- C2: the buffer after the capture loop has processed a run of frames depends
only on the last frame and on `maxFaces`, not on the buffer it started from nor
on any earlier frame. -/
theorem C2_buffer_depends_on_last_frame_only (faceCascade : CascadeClassifier)
    (s1 s2 : State) (earlier1 earlier2 : List (Mat × Int)) (frame : Mat) (key1 key2 : Int)
    (hmax : s1.maxFaces = s2.maxFaces)
    (h1 : ∀ x ∈ earlier1, x.2 ≠ 27) (h2 : ∀ x ∈ earlier2, x.2 ≠ 27) :
    (captureLoop faceCascade s1 (earlier1 ++ [(frame, key1)])).capturedFaces =
      (captureLoop faceCascade s2 (earlier2 ++ [(frame, key2)])).capturedFaces := by
  rw [captureLoop_append_last _ _ _ _ _ h1, captureLoop_append_last _ _ _ _ _ h2,
    captureIteration_faces, captureIteration_faces, captureLoop_maxFaces, captureLoop_maxFaces,
    hmax]

/-- C2 at a concrete input: an empty buffer and no earlier frame on one side,
a stale buffer and an earlier frame with two faces on the other. -/
theorem C2_witness :
    (initial []).maxFaces = ({ initial [] with capturedFaces := [frameA] } : State).maxFaces
      ∧ (∀ x ∈ ([] : List (Mat × Int)), x.2 ≠ 27)
      ∧ (∀ x ∈ [(Mat.camera 7 640 480, (0 : Int))], x.2 ≠ 27)
      ∧ (captureLoop oneFace (initial []) ([] ++ [(frameA, 0)])).capturedFaces =
          (captureLoop oneFace { initial [] with capturedFaces := [frameA] }
            ([(Mat.camera 7 640 480, 0)] ++ [(frameA, 13)])).capturedFaces :=
  ⟨rfl, by simp, by simp,
    C2_buffer_depends_on_last_frame_only oneFace (initial [])
      { initial [] with capturedFaces := [frameA] } [] [(Mat.camera 7 640 480, 0)] frameA 0 13
      rfl (by simp) (by simp)⟩

/-- C4: on the line `setmax abc` the call `stoi` throws `invalid_argument`,
nothing catches it, and the process is terminated instead of prompting again. -/
theorem C4_setmax_abc_terminates (faceCascade : CascadeClassifier) (s : State)
    (clock : Nat → ClockReading) :
    stoi (String.mk ("setmax abc".data.drop 7)) = Except.error StoiError.invalidArgument
      ∧ handleCommand s "setmax abc" clock = CommandResult.uncaught s
      ∧ step faceCascade
          { shared := s, inputThread := InputThread.atGetline, captureLoopRunning := true,
            terminated := false }
          (Event.line "setmax abc" clock) =
        some { shared := s, inputThread := InputThread.atGetline, captureLoopRunning := true,
               terminated := true } :=
  ⟨rfl, rfl, rfl⟩

/-- C5, as stated, fails: with one face in the buffer and a directory that
already holds a regular file under the name the capture uses, `capture` leaves
the directory with one regular file, so no new file appears. -/
theorem C5_counterexample :
    stateTaken.capturedFaces.length = 1
      ∧ (regularFiles stateTaken.directory).length = 1
      ∧ ((handleCommand stateTaken "capture" clockA).state?.map
          fun s => (regularFiles s.directory).length) = some 1 :=
  ⟨rfl, rfl, rfl⟩

/-- C5, amended: when the capture directory holds none of the names
`face_<timestamp_i>_<i>.png` (`i` below the number `n` of buffered faces,
`timestamp_i` read in pass `i`), `capture` leaves the buffer unchanged and adds
to the directory one regular file per face under those names, which are
pairwise distinct, so the directory has exactly `n` more regular files. -/
theorem C5_capture_one_file_per_face (s : State) (clock : Nat → ClockReading)
    (hfree : ∀ i < s.capturedFaces.length,
      faceFileName (putTime (clock i).tm) i ∉ s.directory.map Entry.name) :
    handleCommand s "capture" clock =
        CommandResult.continues
          { s with
            directory := s.directory ++ savedEntries clock 0 s.capturedFaces,
            out := s.out ++ ["Captured faces saved to " ++ dataDirectory ++ "\n"] }
      ∧ ((savedEntries clock 0 s.capturedFaces).map Entry.name).Nodup
      ∧ (regularFiles (s.directory ++ savedEntries clock 0 s.capturedFaces)).length =
          (regularFiles s.directory).length + s.capturedFaces.length := by
  refine ⟨?_, savedEntries_names_nodup clock _ 0, ?_⟩
  · have h := saveCapturedFacesLoop_fresh clock s.capturedFaces 0 s.directory
      (by simpa using hfree)
    simp [handleCommand, saveCapturedFaces, h]
  · rw [regularFiles_append_saved, List.length_append, savedEntries_length]

/-- C5 at a concrete input: a capture of two faces, two seconds after a capture
of one face into an empty directory, leaves three files. -/
theorem C5_witness :
    (∀ i < stateSecond.capturedFaces.length,
        faceFileName (putTime (clockB i).tm) i ∉ stateSecond.directory.map Entry.name)
      ∧ ((handleCommand { initial [] with capturedFaces := bufferOne } "capture" clockA).state?.map
          fun s => s.directory) = some stateSecond.directory
      ∧ ((handleCommand stateSecond "capture" clockB).state?.map
          fun s => s.directory.map Entry.name) =
        some ["face_2024-01-05_09-03-07_0.png", "face_2024-01-05_09-03-09_0.png",
              "face_2024-01-05_09-03-09_1.png"]
      ∧ (regularFiles (stateSecond.directory ++
            savedEntries clockB 0 stateSecond.capturedFaces)).length = 3 :=
  ⟨by decide, rfl, rfl,
    (C5_capture_one_file_per_face stateSecond clockB (by decide)).2.2⟩

/-- C7, as stated, fails: when another file already bears the new name,
`rename foo` replaces it by the latest file, so that other file is gone. -/
theorem C7_counterexample :
    ∃ dir1 out, renameFile "foo" directoryB = Except.ok (dir1, out)
      ∧ ((regularFiles directoryB).map Entry.lastWriteTime).Nodup
      ∧ olderFile ∈ directoryB
      ∧ (∀ x ∈ regularFiles directoryB, x.lastWriteTime ≤ 2)
      ∧ olderFile.lastWriteTime < 2
      ∧ olderFile ∉ dir1
      ∧ dir1.length = 1 := by
  refine ⟨_, _, rfl, ?_, ?_, ?_, ?_, ?_, ?_⟩ <;> decide

/-- C7, amended: in a capture directory whose regular files have pairwise
distinct last-write times, `rename foo` turns the name of the latest regular
file `e` into `foo` plus the extension of `e` and leaves every other entry as
it was, provided that new name is a plain file name and no other entry bears
it; in a directory without regular files it changes nothing. -/
theorem C7_rename_latest (newName : String) (dir : Directory) (e : Entry)
    (hnodup : (dir.map Entry.name).Nodup)
    (hdistinct : ((regularFiles dir).map Entry.lastWriteTime).Nodup)
    (he : e ∈ regularFiles dir)
    (hlatest : ∀ x ∈ regularFiles dir, x.lastWriteTime ≤ e.lastWriteTime)
    (hname : isFileName (newName ++ extension e.name) = true)
    (hfree : ∀ x ∈ dir, x.name = newName ++ extension e.name → x = e) :
    renameFile newName dir =
        Except.ok
          (dir.map (fun x =>
              if x = e then { e with name := newName ++ extension e.name } else x),
           ["File renamed to: "
              ++ quoted (dataDirectory ++ "/" ++ (newName ++ extension e.name)) ++ "\n"])
      ∧ ∀ dir0 : Directory, regularFiles dir0 = [] →
          renameFile newName dir0 = Except.ok (dir0, ["No files found in the directory.\n"]) := by
  refine ⟨?_, fun dir0 h0 => renameFile_empty newName dir0 h0⟩
  obtain ⟨rest, hsort⟩ := sorted_first_is_latest dir e hnodup hdistinct he hlatest
  unfold renameFile
  simp only [hsort]
  rw [fsRename_free dir e _ hnodup (mem_of_mem_regularFiles dir e he).1 hname hfree]

/-- C7 at a concrete input: two regular files and a folder, `rename foo`. -/
theorem C7_witness :
    (directoryC.map Entry.name).Nodup
      ∧ ((regularFiles directoryC).map Entry.lastWriteTime).Nodup
      ∧ latestFile ∈ regularFiles directoryC
      ∧ (∀ x ∈ regularFiles directoryC, x.lastWriteTime ≤ latestFile.lastWriteTime)
      ∧ isFileName ("foo" ++ extension latestFile.name) = true
      ∧ (∀ x ∈ directoryC, x.name = "foo" ++ extension latestFile.name → x = latestFile)
      ∧ renameFile "foo" directoryC =
        Except.ok
          ([{ name := "a.png", kind := FileKind.regular, lastWriteTime := 2,
              content := Content.blob 1 },
            { name := "foo.jpg", kind := FileKind.regular, lastWriteTime := 5,
              content := Content.blob 2 },
            { name := "old", kind := FileKind.directory, lastWriteTime := 9,
              content := Content.blob 0 }],
           ["File renamed to: " ++ quoted (dataDirectory ++ "/foo.jpg") ++ "\n"])
      ∧ renameFile "foo" [folderEntry] =
        Except.ok ([folderEntry], ["No files found in the directory.\n"]) :=
  ⟨by decide, by decide, by decide, by decide, by decide, by decide,
    (C7_rename_latest "foo" directoryC latestFile
      (by decide) (by decide) (by decide) (by decide) (by decide) (by decide)).1,
    (C7_rename_latest "foo" directoryC latestFile
      (by decide) (by decide) (by decide) (by decide) (by decide) (by decide)).2
      [folderEntry] (by decide)⟩

/-- C8, as stated, fails: with two detected regions and `maxFaces = 1` no
rectangle is drawn for the second region. -/
theorem C8_counterexample :
    ¬ (∀ r ∈ twoFaces (Mat.cvtColor frameA),
        r ∈ (detectFaces 1 frameA twoFaces []).1.rectangles) := by
  decide

/-- C8, amended: `detectFaces` draws a rectangle for exactly the first
`min k (max m 0)` detected regions, in detector order, and none for the others;
the same regions, cropped and resized, are appended to the buffer. -/
theorem C8_rectangles_only_for_buffered (faceCascade : CascadeClassifier) (frame : Mat)
    (m : Int) (buf : List Mat) :
    (detectFaces m frame faceCascade buf).1.rectangles =
        frame.rectangles ++ (faceCascade (Mat.cvtColor frame)).take m.toNat
      ∧ (detectFaces m frame faceCascade buf).2 =
        buf ++ ((faceCascade (Mat.cvtColor frame)).take m.toNat).map
          (cropped (Mat.cvtColor frame))
      ∧ ((faceCascade (Mat.cvtColor frame)).take m.toNat).length =
        min (faceCascade (Mat.cvtColor frame)).length m.toNat := by
  rw [detectFaces_eq]
  refine ⟨rectangles_foldl _ _, rfl, ?_⟩
  simp [Nat.min_comm]

/-- C9: after `exit` has set the stop flag and the command loop has returned,
the capture loop still runs its body on the next frame, overwrites the buffer
and goes on. -/
theorem C9_capture_loop_ignores_stop :
    (∃ p, run oneFace (Process.start [])
          [Event.guard, Event.line "exit" clockA, Event.frame frameA 0] = some p
      ∧ p.shared.stopInputThread = true
      ∧ p.inputThread = InputThread.returned
      ∧ p.captureLoopRunning = true
      ∧ p.shared.capturedFaces = [cropped (Mat.cvtColor frameA) rectA])
    ∧ ∀ (faceCascade : CascadeClassifier) (s : State) (frame : Mat),
        (captureIteration faceCascade { s with stopInputThread := true } frame 0).2 = true := by
  refine ⟨⟨_, rfl, ?_, ?_, ?_, ?_⟩, ?_⟩
  · decide
  · decide
  · decide
  · decide
  · intro faceCascade s frame
    rw [captureIteration_continues]
    decide

end FaceCapture
